import Mathlib

/-!
Verification of the translation-job engine of `Subtitle_Auto_Translator.py`
(class `Translator`): the per-entry loop `translate_srt`, the start guard
`start_translation`, and the quota accessor `get_quota`, shallowly embedded
as pure Lean functions over an explicit network/cancellation oracle.
-/

namespace SubtitleTranslator

/-- Outcome of one `requests.post` to the DeepL endpoint for one entry, as the
code distinguishes them: a 2xx response with decodable body (`success`), a
non-2xx response (`raise_for_status` raises `HTTPError`), a transport-level
`RequestException`, or any other unexpected exception (e.g. while decoding). -/
inductive ApiResult
  | success (text : String)
  | httpError
  | requestError
  | otherError
deriving DecidableEq, Repr

def ApiResult.isSuccess : ApiResult → Bool
  | .success _ => true
  | _ => false

/-- The translated text carried by a `success`, `""` otherwise. -/
def ApiResult.text : ApiResult → String
  | .success t => t
  | _ => ""

/-- Externally observable actions of `translate_srt`, in order: network
requests, the `callback_dict` callbacks, `time.sleep(SLEEP_TIME)`, and the
final `subtitles.save`.  `progressCb n d` records the call
`progress_callback(translated_count / total_subtitles)` as the exact pair
(numerator, denominator). -/
inductive Event
  | networkCall (idx : Nat)
  | quotaCb (used : Nat)
  | progressCb (count : Nat) (total : Nat)
  | sleepEvt
  | saveFile
  | statusCb (msg : String)
  | errorCb (msg : String)
deriving DecidableEq, Repr

def STATUS_TRANSLATION_COMPLETED : String := "Translation completed"

/-- Python's `str.lower`, for the ASCII extensions compared here. -/
def strLower (s : String) : String := ⟨s.data.map Char.toLower⟩

/-- Python's `str.strip`: remove leading and trailing whitespace. -/
def strStrip (s : String) : String :=
  ⟨((s.data.dropWhile Char.isWhitespace).reverse.dropWhile Char.isWhitespace).reverse⟩

/-- State accumulated by the `for` loop of `translate_srt` plus whether the
loop exited via the `should_stop` early `return`. -/
structure LoopResult where
  texts : List String
  count : Nat
  quota : Nat
  events : List Event
  cancelled : Bool
deriving DecidableEq, Repr

/-- The `for i, subtitle in enumerate(subtitles)` loop of
`Translator.translate_srt` (lines 124-155).  `api j` is the network's answer
for the entry at 0-based position `j`; `stop j` is the value of
`self.should_stop` observed at the per-iteration check before entry `j`.
`texts` threads the remaining `subtitle.text` fields, `count` is
`self.translated_count`, `quota` is `self.used_quota`. -/
def translateEntries (api : Nat → ApiResult) (stop : Nat → Bool) (total : Nat) :
    List String → Nat → Nat → Nat → LoopResult
  | [], _, count, quota => ⟨[], count, quota, [], false⟩
  | text :: rest, i, count, quota =>
    if stop i then
      ⟨text :: rest, count, quota, [], true⟩
    else
      match api i with
      | .success t =>
          let count' := count + 1
          let quota' := quota + t.length
          let r := translateEntries api stop total rest (i + 1) count' quota'
          ⟨t :: r.texts, r.count, r.quota,
            .networkCall i :: .quotaCb quota' :: .progressCb count' total ::
              .sleepEvt :: r.events,
            r.cancelled⟩
      | .httpError =>
          let r := translateEntries api stop total rest (i + 1) count quota
          ⟨text :: r.texts, r.count, r.quota, .networkCall i :: r.events,
            r.cancelled⟩
      | .requestError =>
          let r := translateEntries api stop total rest (i + 1) count quota
          ⟨text :: r.texts, r.count, r.quota, .networkCall i :: r.events,
            r.cancelled⟩
      | .otherError =>
          let r := translateEntries api stop total rest (i + 1) count quota
          ⟨text :: r.texts, r.count, r.quota, .networkCall i :: r.events,
            r.cancelled⟩

/-- Result of a whole `translate_srt` call: the final entry texts, the final
`translated_count` and `used_quota`, the event trace, and whether
`subtitles.save(output_path, ...)` was reached. -/
structure RunResult where
  texts : List String
  count : Nat
  quota : Nat
  events : List Event
  saved : Bool
deriving DecidableEq, Repr

/-- The body of `Translator.translate_srt` after the extension guard
(lines 119-160): open the file (`entries` is the parsed text list), run the
loop with `translated_count` reset to 0 and `used_quota` starting at its
current value `q0`; on early `return` via `should_stop` nothing further
happens, otherwise the file is saved and the status callback fires. -/
def translateRun (api : Nat → ApiResult) (stop : Nat → Bool)
    (entries : List String) (q0 : Nat) : RunResult :=
  let total := entries.length
  let r := translateEntries api stop total entries 0 0 q0
  if r.cancelled then
    ⟨r.texts, r.count, r.quota, r.events, false⟩
  else
    ⟨r.texts, r.count, r.quota,
      r.events ++ [.saveFile, .statusCb STATUS_TRANSLATION_COMPLETED], true⟩

/-- Model of `Translator.translate_srt` (lines 111-160): the extension guard (lines
113-116) returns with a message box and no run when `ext.lower() != '.srt'`;
`ext` is the extension `os.path.splitext` yields for `file_path`. -/
def translate_srt (ext : String) (api : Nat → ApiResult) (stop : Nat → Bool)
    (entries : List String) (q0 : Nat) : Option RunResult :=
  if strLower ext ≠ ".srt" then none
  else some (translateRun api stop entries q0)

/-- Outcome of `Translator.start_translation` (lines 162-178): report the
missing-key error and return; or submit `translate_srt` to the executor
(after `status_callback("Translation started")`); or show the invalid-file
message box. -/
inductive StartOutcome
  | errorReported (msg : String)
  | submitted
  | invalidFileType
deriving DecidableEq, Repr

/-- The guard `not self.deepl_api_key or len(self.deepl_api_key.strip()) == 0`
(line 165): `none` models `self.deepl_api_key is None`, a Python falsy empty
string is the `k = ""` case, and `strip` is `strStrip`. -/
def keyMissing : Option String → Bool
  | none => true
  | some k => k == "" || (strStrip k).length == 0

/-- Model of `Translator.start_translation` (lines 162-178).  `jobRunning` models
whether `self.current_translation` is a still-running task; the code reads
no such state, which the theorems below make explicit. -/
def start_translation (apiKey : Option String) (ext : String)
    (jobRunning : Bool) : StartOutcome :=
  if keyMissing apiKey then
    .errorReported ("No API key found. Please provide a valid DeepL API Key.")
  else if strLower ext = ".srt" then
    .submitted
  else
    .invalidFileType

/-- The constant `self.quota = 500000` set in `Translator.__init__` (line 86) and never
reassigned anywhere in the class. -/
def initQuota : Nat := 500000

/-- Model of `Translator.get_quota` (lines 187-189): returns `(self.quota,
self.used_quota)`. -/
def get_quota (used_quota : Nat) : Nat × Nat := (initQuota, used_quota)

/-- Number of successful API answers among positions `i, i+1, ..., i+n-1`. -/
def succCount (api : Nat → ApiResult) (i n : Nat) : Nat :=
  (List.range n).countP (fun j => (api (i + j)).isSuccess)

/-- Sum of translated-text lengths over the successful positions
`i, ..., i+n-1`; failed positions contribute 0. -/
def succLen (api : Nat → ApiResult) (i n : Nat) : Nat :=
  ((List.range n).map (fun j =>
    if (api (i + j)).isSuccess then (api (i + j)).text.length else 0)).sum

/-- The entry texts a full (uncancelled) pass leaves behind, starting at
position `i`: the translated text where the call succeeded, the original
text where it failed. -/
def finalTexts (api : Nat → ApiResult) : Nat → List String → List String
  | _, [] => []
  | i, t :: rest =>
      (if (api i).isSuccess then (api i).text else t) :: finalTexts api (i + 1) rest

/-- The event trace of `n` uncancelled loop iterations starting at position
`i` with counter `c` and quota `q`. -/
def loopEvents (api : Nat → ApiResult) (total : Nat) : Nat → Nat → Nat → Nat → List Event
  | 0, _, _, _ => []
  | n + 1, i, c, q =>
    match api i with
    | .success t =>
        .networkCall i :: .quotaCb (q + t.length) :: .progressCb (c + 1) total ::
          .sleepEvt :: loopEvents api total n (i + 1) (c + 1) (q + t.length)
    | .httpError => .networkCall i :: loopEvents api total n (i + 1) c q
    | .requestError => .networkCall i :: loopEvents api total n (i + 1) c q
    | .otherError => .networkCall i :: loopEvents api total n (i + 1) c q

/-- The `(numerator, denominator)` pairs of the progress-callback invocations
in a trace, in order. -/
def progressEvents (evs : List Event) : List (Nat × Nat) :=
  evs.filterMap (fun e => match e with | .progressCb a b => some (a, b) | _ => none)

/-- The progress fractions delivered to the progress callback, as exact
rationals, in order. -/
def progressFractions (evs : List Event) : List ℚ :=
  (progressEvents evs).map (fun p => (p.1 : ℚ) / (p.2 : ℚ))

def Event.isNetworkCall : Event → Bool
  | .networkCall _ => true
  | _ => false

def Event.isSleep : Event → Bool
  | .sleepEvt => true
  | _ => false

def Event.isErrorCb : Event → Bool
  | .errorCb _ => true
  | _ => false

/-- Add `a` to the argument of every quota callback in a trace, leaving all
other events untouched. -/
def shiftQuotaEvents (a : Nat) : List Event → List Event :=
  List.map (fun e => match e with | .quotaCb u => .quotaCb (a + u) | e => e)

/-! ### Structural lemmas about the loop -/

theorem translateEntries_nil (api : Nat → ApiResult) (stop : Nat → Bool)
    (total i c q : Nat) :
    translateEntries api stop total [] i c q = ⟨[], c, q, [], false⟩ := rfl

theorem translateEntries_cons_stop (api : Nat → ApiResult) (stop : Nat → Bool)
    (total : Nat) (t : String) (rest : List String) (i c q : Nat)
    (h : stop i = true) :
    translateEntries api stop total (t :: rest) i c q =
      ⟨t :: rest, c, q, [], true⟩ := by
  simp [translateEntries, h]

theorem translateEntries_cons_success (api : Nat → ApiResult) (stop : Nat → Bool)
    (total : Nat) (t : String) (rest : List String) (i c q : Nat) (s : String)
    (h : stop i = false) (ha : api i = .success s) :
    translateEntries api stop total (t :: rest) i c q =
      let r := translateEntries api stop total rest (i + 1) (c + 1) (q + s.length)
      ⟨s :: r.texts, r.count, r.quota,
        .networkCall i :: .quotaCb (q + s.length) :: .progressCb (c + 1) total ::
          .sleepEvt :: r.events,
        r.cancelled⟩ := by
  simp [translateEntries, h, ha]

theorem translateEntries_cons_fail (api : Nat → ApiResult) (stop : Nat → Bool)
    (total : Nat) (t : String) (rest : List String) (i c q : Nat)
    (h : stop i = false) (ha : (api i).isSuccess = false) :
    translateEntries api stop total (t :: rest) i c q =
      let r := translateEntries api stop total rest (i + 1) c q
      ⟨t :: r.texts, r.count, r.quota, .networkCall i :: r.events,
        r.cancelled⟩ := by
  cases hx : api i with
  | success s => rw [hx] at ha; simp [ApiResult.isSuccess] at ha
  | httpError => simp [translateEntries, h, hx]
  | requestError => simp [translateEntries, h, hx]
  | otherError => simp [translateEntries, h, hx]

theorem succCount_succ (api : Nat → ApiResult) (i n : Nat) :
    succCount api i (n + 1) =
      (if (api i).isSuccess then 1 else 0) + succCount api (i + 1) n := by
  unfold succCount
  rw [List.range_succ_eq_map, List.countP_cons, List.countP_map]
  have hmap : List.countP ((fun j => (api (i + j)).isSuccess) ∘ Nat.succ) (List.range n)
      = List.countP (fun j => (api (i + 1 + j)).isSuccess) (List.range n) := by
    apply List.countP_congr
    intro j _
    have h : i + j.succ = i + 1 + j := by omega
    simp [Function.comp_def, h]
  rw [hmap]
  simp [Nat.add_comm]

theorem succLen_succ (api : Nat → ApiResult) (i n : Nat) :
    succLen api i (n + 1) =
      (if (api i).isSuccess then (api i).text.length else 0) + succLen api (i + 1) n := by
  unfold succLen
  rw [List.range_succ_eq_map, List.map_cons, List.sum_cons, List.map_map]
  have hmap : List.map
        ((fun j => if (api (i + j)).isSuccess then (api (i + j)).text.length else 0)
          ∘ Nat.succ) (List.range n)
      = List.map
        (fun j => if (api (i + 1 + j)).isSuccess then (api (i + 1 + j)).text.length else 0)
        (List.range n) := by
    apply List.map_congr_left
    intro j _
    have h : i + j.succ = i + 1 + j := by omega
    simp [Function.comp_def, h]
  rw [hmap]
  simp

/-- Master lemma: when the stop flag is never observed set, the loop runs to
the end and its result is fully determined by the network oracle. -/
theorem translateEntries_no_stop (api : Nat → ApiResult) (stop : Nat → Bool)
    (total : Nat) (hstop : ∀ j, stop j = false) :
    ∀ (l : List String) (i c q : Nat),
      translateEntries api stop total l i c q =
        ⟨finalTexts api i l, c + succCount api i l.length,
          q + succLen api i l.length, loopEvents api total l.length i c q, false⟩ := by
  intro l
  induction l with
  | nil => intro i c q; simp [translateEntries_nil, succCount, succLen, loopEvents, finalTexts]
  | cons t rest ih =>
    intro i c q
    cases hx : api i with
    | success s =>
        rw [translateEntries_cons_success api stop total t rest i c q s (hstop i) hx]
        simp [ih, List.length_cons, succCount_succ, succLen_succ, loopEvents,
          finalTexts, hx, ApiResult.isSuccess, ApiResult.text, Nat.add_assoc]
    | httpError =>
        rw [translateEntries_cons_fail api stop total t rest i c q (hstop i) (by rw [hx]; rfl)]
        simp [ih, List.length_cons, succCount_succ, succLen_succ, loopEvents,
          finalTexts, hx, ApiResult.isSuccess, ApiResult.text]
    | requestError =>
        rw [translateEntries_cons_fail api stop total t rest i c q (hstop i) (by rw [hx]; rfl)]
        simp [ih, List.length_cons, succCount_succ, succLen_succ, loopEvents,
          finalTexts, hx, ApiResult.isSuccess, ApiResult.text]
    | otherError =>
        rw [translateEntries_cons_fail api stop total t rest i c q (hstop i) (by rw [hx]; rfl)]
        simp [ih, List.length_cons, succCount_succ, succLen_succ, loopEvents,
          finalTexts, hx, ApiResult.isSuccess, ApiResult.text]

/-- Master lemma for cancellation: if the flag is first observed set at the
check before entry `k` (and `k < |l|`), the loop returns early having fully
processed exactly the first `k` entries. -/
theorem translateEntries_stop_at (api : Nat → ApiResult) (stop : Nat → Bool)
    (total : Nat) :
    ∀ (k : Nat) (l : List String) (i c q : Nat),
      (∀ j, j < k → stop (i + j) = false) → stop (i + k) = true → k < l.length →
      translateEntries api stop total l i c q =
        ⟨finalTexts api i (l.take k) ++ l.drop k, c + succCount api i k,
          q + succLen api i k, loopEvents api total k i c q, true⟩ := by
  intro k
  induction k with
  | zero =>
    intro l i c q _ hk hlen
    cases l with
    | nil => simp at hlen
    | cons t rest =>
      rw [translateEntries_cons_stop api stop total t rest i c q (by simpa using hk)]
      simp [finalTexts, succCount, succLen, loopEvents]
  | succ k ih =>
    intro l i c q hlt hk hlen
    cases l with
    | nil => simp at hlen
    | cons t rest =>
      have hstop0 : stop i = false := by simpa using hlt 0 (Nat.succ_pos k)
      have hlt' : ∀ j, j < k → stop (i + 1 + j) = false := by
        intro j hj
        have := hlt (j + 1) (by omega)
        have he : i + (j + 1) = i + 1 + j := by omega
        rwa [he] at this
      have hk' : stop (i + 1 + k) = true := by
        have he : i + (k + 1) = i + 1 + k := by omega
        rwa [he] at hk
      have hlen' : k < rest.length := by simpa using Nat.lt_of_succ_lt_succ hlen
      cases hx : api i with
      | success s =>
          rw [translateEntries_cons_success api stop total t rest i c q s hstop0 hx]
          simp [ih rest (i + 1) (c + 1) (q + s.length) hlt' hk' hlen',
            finalTexts, succCount_succ, succLen_succ, loopEvents, hx,
            ApiResult.isSuccess, ApiResult.text, Nat.add_assoc]
      | httpError =>
          rw [translateEntries_cons_fail api stop total t rest i c q hstop0 (by rw [hx]; rfl)]
          simp [ih rest (i + 1) c q hlt' hk' hlen',
            finalTexts, succCount_succ, succLen_succ, loopEvents, hx,
            ApiResult.isSuccess, ApiResult.text]
      | requestError =>
          rw [translateEntries_cons_fail api stop total t rest i c q hstop0 (by rw [hx]; rfl)]
          simp [ih rest (i + 1) c q hlt' hk' hlen',
            finalTexts, succCount_succ, succLen_succ, loopEvents, hx,
            ApiResult.isSuccess, ApiResult.text]
      | otherError =>
          rw [translateEntries_cons_fail api stop total t rest i c q hstop0 (by rw [hx]; rfl)]
          simp [ih rest (i + 1) c q hlt' hk' hlen',
            finalTexts, succCount_succ, succLen_succ, loopEvents, hx,
            ApiResult.isSuccess, ApiResult.text]

/-! ### Trace lemmas -/

theorem finalTexts_length (api : Nat → ApiResult) :
    ∀ (l : List String) (i : Nat), (finalTexts api i l).length = l.length := by
  intro l
  induction l with
  | nil => intro i; rfl
  | cons t rest ih => intro i; simp [finalTexts, ih]

theorem finalTexts_getElem? (api : Nat → ApiResult) :
    ∀ (l : List String) (i j : Nat),
      (finalTexts api i l)[j]? =
        l[j]?.map (fun t => if (api (i + j)).isSuccess then (api (i + j)).text else t) := by
  intro l
  induction l with
  | nil => intro i j; simp [finalTexts]
  | cons t rest ih =>
    intro i j
    cases j with
    | zero => simp [finalTexts]
    | succ j =>
      have he : i + (j + 1) = i + 1 + j := by omega
      simp [finalTexts, ih, he]

theorem loopEvents_no_errorCb (api : Nat → ApiResult) (total : Nat) :
    ∀ (n i c q : Nat), (loopEvents api total n i c q).filter Event.isErrorCb = [] := by
  intro n
  induction n with
  | zero => intro i c q; rfl
  | succ n ih =>
    intro i c q
    cases hx : api i with
    | success s => simp [loopEvents, hx, Event.isErrorCb, List.filter_cons, ih]
    | httpError => simp [loopEvents, hx, Event.isErrorCb, List.filter_cons, ih]
    | requestError => simp [loopEvents, hx, Event.isErrorCb, List.filter_cons, ih]
    | otherError => simp [loopEvents, hx, Event.isErrorCb, List.filter_cons, ih]

theorem loopEvents_sleep_count (api : Nat → ApiResult) (total : Nat) :
    ∀ (n i c q : Nat),
      ((loopEvents api total n i c q).filter Event.isSleep).length = succCount api i n := by
  intro n
  induction n with
  | zero => intro i c q; rfl
  | succ n ih =>
    intro i c q
    rw [succCount_succ]
    cases hx : api i with
    | success s =>
        simp [loopEvents, hx, Event.isSleep, List.filter_cons, ih,
          ApiResult.isSuccess, Nat.add_comm]
    | httpError =>
        simp [loopEvents, hx, Event.isSleep, List.filter_cons, ih, ApiResult.isSuccess]
    | requestError =>
        simp [loopEvents, hx, Event.isSleep, List.filter_cons, ih, ApiResult.isSuccess]
    | otherError =>
        simp [loopEvents, hx, Event.isSleep, List.filter_cons, ih, ApiResult.isSuccess]

theorem loopEvents_network_calls (api : Nat → ApiResult) (total : Nat) :
    ∀ (n i c q : Nat),
      (loopEvents api total n i c q).filter Event.isNetworkCall =
        (List.range n).map (fun j => Event.networkCall (i + j)) := by
  intro n
  induction n with
  | zero => intro i c q; rfl
  | succ n ih =>
    intro i c q
    have hmap : List.map ((fun j => Event.networkCall (i + j)) ∘ Nat.succ) (List.range n)
        = List.map (fun j => Event.networkCall (i + 1 + j)) (List.range n) := by
      apply List.map_congr_left
      intro j _
      have h : i + j.succ = i + 1 + j := by omega
      simp [Function.comp_def, h]
    rw [List.range_succ_eq_map, List.map_cons, List.map_map, hmap]
    cases hx : api i with
    | success s => simp [loopEvents, hx, Event.isNetworkCall, List.filter_cons, ih]
    | httpError => simp [loopEvents, hx, Event.isNetworkCall, List.filter_cons, ih]
    | requestError => simp [loopEvents, hx, Event.isNetworkCall, List.filter_cons, ih]
    | otherError => simp [loopEvents, hx, Event.isNetworkCall, List.filter_cons, ih]

theorem progressEvents_loopEvents_all_success (api : Nat → ApiResult) (total : Nat)
    (hs : ∀ j, (api j).isSuccess = true) :
    ∀ (n i c q : Nat),
      progressEvents (loopEvents api total n i c q) =
        (List.range n).map (fun j => (c + 1 + j, total)) := by
  intro n
  induction n with
  | zero => intro i c q; rfl
  | succ n ih =>
    intro i c q
    have hmap : List.map ((fun j => (c + 1 + j, total)) ∘ Nat.succ) (List.range n)
        = List.map (fun j => (c + 1 + 1 + j, total)) (List.range n) := by
      apply List.map_congr_left
      intro j _
      have h : c + 1 + j.succ = c + 1 + 1 + j := by omega
      simp [Function.comp_def, h]
    rw [List.range_succ_eq_map, List.map_cons, List.map_map, hmap]
    cases hx : api i with
    | success s =>
        have ih' := ih (i + 1) (c + 1) (q + s.length)
        unfold progressEvents at ih'
        simp [loopEvents, hx, progressEvents, List.filterMap_cons, ih']
    | httpError =>
        have := hs i
        rw [hx] at this
        simp [ApiResult.isSuccess] at this
    | requestError =>
        have := hs i
        rw [hx] at this
        simp [ApiResult.isSuccess] at this
    | otherError =>
        have := hs i
        rw [hx] at this
        simp [ApiResult.isSuccess] at this

/-- The loop's control flow, counter, texts and request pattern are
independent of the initial `used_quota`: a run started at quota `a + q`
behaves as the run started at `q` with every quota-callback argument
shifted by `a`. -/
theorem translateEntries_quota_add (api : Nat → ApiResult) (stop : Nat → Bool)
    (total : Nat) :
    ∀ (l : List String) (i c a q : Nat),
      translateEntries api stop total l i c (a + q) =
        ⟨(translateEntries api stop total l i c q).texts,
          (translateEntries api stop total l i c q).count,
          a + (translateEntries api stop total l i c q).quota,
          shiftQuotaEvents a (translateEntries api stop total l i c q).events,
          (translateEntries api stop total l i c q).cancelled⟩ := by
  intro l
  induction l with
  | nil => intro i c a q; simp [translateEntries_nil, shiftQuotaEvents]
  | cons t rest ih =>
    intro i c a q
    by_cases hst : stop i = true
    · rw [translateEntries_cons_stop api stop total t rest i c (a + q) hst,
        translateEntries_cons_stop api stop total t rest i c q hst]
      simp [shiftQuotaEvents]
    · have hst' : stop i = false := by simpa using hst
      cases hx : api i with
      | success s =>
          rw [translateEntries_cons_success api stop total t rest i c (a + q) s hst' hx,
            translateEntries_cons_success api stop total t rest i c q s hst' hx]
          have he : a + q + s.length = a + (q + s.length) := by omega
          simp [he, ih, shiftQuotaEvents]
      | httpError =>
          rw [translateEntries_cons_fail api stop total t rest i c (a + q) hst' (by rw [hx]; rfl),
            translateEntries_cons_fail api stop total t rest i c q hst' (by rw [hx]; rfl)]
          simp [ih, shiftQuotaEvents]
      | requestError =>
          rw [translateEntries_cons_fail api stop total t rest i c (a + q) hst' (by rw [hx]; rfl),
            translateEntries_cons_fail api stop total t rest i c q hst' (by rw [hx]; rfl)]
          simp [ih, shiftQuotaEvents]
      | otherError =>
          rw [translateEntries_cons_fail api stop total t rest i c (a + q) hst' (by rw [hx]; rfl),
            translateEntries_cons_fail api stop total t rest i c q hst' (by rw [hx]; rfl)]
          simp [ih, shiftQuotaEvents]

theorem filter_network_shiftQuotaEvents (a : Nat) :
    ∀ evs : List Event,
      (shiftQuotaEvents a evs).filter Event.isNetworkCall = evs.filter Event.isNetworkCall := by
  intro evs
  induction evs with
  | nil => rfl
  | cons e rest ih =>
    cases e <;>
      simp [shiftQuotaEvents, List.filter_cons, Event.isNetworkCall] <;>
      simpa [shiftQuotaEvents] using ih

/-! ### Run-level corollaries -/

/-- A run during which the stop flag is never observed set processes every
entry, saves the file and fires the completion status callback. -/
theorem translateRun_no_stop (api : Nat → ApiResult) (stop : Nat → Bool)
    (entries : List String) (q0 : Nat) (hstop : ∀ j, stop j = false) :
    translateRun api stop entries q0 =
      ⟨finalTexts api 0 entries, succCount api 0 entries.length,
        q0 + succLen api 0 entries.length,
        loopEvents api entries.length entries.length 0 0 q0 ++
          [Event.saveFile, Event.statusCb STATUS_TRANSLATION_COMPLETED], true⟩ := by
  have h := translateEntries_no_stop api stop entries.length hstop entries 0 0 q0
  simp only [translateRun, h]
  simp

/-- A run that observes the stop flag first at the check before entry `k`
returns early: exactly the first `k` entries were processed and the file was
not saved. -/
theorem translateRun_stop_at (api : Nat → ApiResult) (stop : Nat → Bool)
    (entries : List String) (q0 k : Nat)
    (hlt : ∀ j, j < k → stop j = false) (hk : stop k = true)
    (hlen : k < entries.length) :
    translateRun api stop entries q0 =
      ⟨finalTexts api 0 (entries.take k) ++ entries.drop k, succCount api 0 k,
        q0 + succLen api 0 k, loopEvents api entries.length k 0 0 q0, false⟩ := by
  have h := translateEntries_stop_at api stop entries.length k entries 0 0 q0
    (fun j hj => by simpa using hlt j hj) (by simpa using hk) hlen
  simp only [translateRun, h]
  simp

/-! ### Concrete scenario oracles -/

/-- Network oracle of the spec's 3-entry scenario: entry 2 (0-based index 1)
gets a non-2xx response, every other entry translates to `"X"`. -/
def apiFailSecond : Nat → ApiResult := fun j => if j = 1 then .httpError else .success ("X")

/-- Network oracle where every call succeeds with text `"ab"`. -/
def apiAllOk : Nat → ApiResult := fun _ => .success ("ab")

/-- Network oracle where every call fails at transport level. -/
def apiAllFail : Nat → ApiResult := fun _ => .requestError

/-- Network oracle where only the first entry succeeds (with text `"abc"`). -/
def apiFirstOnly : Nat → ApiResult := fun j => if j = 0 then .success ("abc") else .httpError

/-- Stop flag that is never set. -/
def stopNever : Nat → Bool := fun _ => false

/-- Stop flag observed set from the check before entry `k` onwards. -/
def stopFrom (k : Nat) : Nat → Bool := fun j => decide (k ≤ j)

/-! ### Claims -/

/-- C1, counterexample: in the spec's own 3-entry scenario (entry 2's remote
call returns a non-2xx response, the others succeed, never cancelled) the
final `translated_count` is 2, not 3 — the counter is not incremented for the
failed entry. -/
theorem C1_counterexample :
    (translateRun apiFailSecond stopNever ["a", "b", "c"] 0).count = 2 ∧
    (translateRun apiFailSecond stopNever ["a", "b", "c"] 0).count ≠ 3 := by
  constructor <;> decide

/-- C1 (amended): on a failure of any kind the `translated_count` counter is
NOT incremented; over an uncancelled run it ends equal to the number of
entries whose translation succeeded (the progress numerator counts
successes, not attempts). -/
theorem C1_count_only_successes (api : Nat → ApiResult) (stop : Nat → Bool)
    (entries : List String) (hstop : ∀ j, stop j = false) :
    (translateRun api stop entries 0).count = succCount api 0 entries.length := by
  rw [translateRun_no_stop api stop entries 0 hstop]

/-- C1, witness: the amended statement evaluated on the 3-entry scenario. -/
theorem C1_witness :
    (translateRun apiFailSecond stopNever ["a", "b", "c"] 0).count =
      succCount apiFailSecond 0 (["a", "b", "c"] : List String).length :=
  C1_count_only_successes apiFailSecond stopNever ["a", "b", "c"] (fun _ => rfl)

/-- C2, counterexample: cancelling a 2-entry run after 1 processed entry does
not save the output document — the early `return` at the `should_stop` check
skips `subtitles.save`. -/
theorem C2_counterexample :
    (translateRun apiAllOk (stopFrom 1) ["a", "b"] 0).saved = false := by decide

/-- C2 (amended): if the cancellation flag becomes set after the loop has
processed `k < N` entries, the run stops at the next per-entry check and
returns WITHOUT saving the output document; in memory the first `k` entries
(in order) are possibly translated and the remaining `N-k` entries retain
their original text verbatim. -/
theorem C2_cancel_unsaved (api : Nat → ApiResult) (stop : Nat → Bool)
    (entries : List String) (q0 k : Nat)
    (hlt : ∀ j, j < k → stop j = false) (hk : stop k = true)
    (hlen : k < entries.length) :
    (translateRun api stop entries q0).saved = false ∧
    (translateRun api stop entries q0).texts.take k = finalTexts api 0 (entries.take k) ∧
    (translateRun api stop entries q0).texts.drop k = entries.drop k ∧
    (translateRun api stop entries q0).count = succCount api 0 k := by
  rw [translateRun_stop_at api stop entries q0 k hlt hk hlen]
  have hfl : (finalTexts api 0 (entries.take k)).length = k := by
    rw [finalTexts_length, List.length_take]
    omega
  refine ⟨rfl, ?_, ?_, rfl⟩
  · rw [List.take_append_eq_append_take, hfl, Nat.sub_self,
      List.take_of_length_le (Nat.le_of_eq hfl)]
    simp
  · rw [List.drop_append_eq_append_drop, hfl, Nat.sub_self,
      List.drop_eq_nil_of_le (Nat.le_of_eq hfl)]
    simp

/-- C2, witness: the amended statement evaluated on a concrete 2-entry run
cancelled after the first entry. -/
theorem C2_witness :
    (translateRun apiAllOk (stopFrom 1) ["a", "b"] 0).saved = false ∧
    (translateRun apiAllOk (stopFrom 1) ["a", "b"] 0).texts.take 1 =
      finalTexts apiAllOk 0 ((["a", "b"] : List String).take 1) ∧
    (translateRun apiAllOk (stopFrom 1) ["a", "b"] 0).texts.drop 1 =
      (["a", "b"] : List String).drop 1 ∧
    (translateRun apiAllOk (stopFrom 1) ["a", "b"] 0).count = succCount apiAllOk 0 1 :=
  C2_cancel_unsaved apiAllOk (stopFrom 1) ["a", "b"] 0 1
    (by decide) (by decide) (by decide)

/-- C4, counterexample: for the empty document the progress callback is never
invoked at all, so progress 1.0 is not reported. -/
theorem C4_counterexample :
    progressEvents (translateRun apiAllOk stopNever [] 0).events = [] := by decide

/-- C4 (amended): for the empty document (`total_entries == 0`) a started run
makes no network calls, saves the output immediately and reports terminal
status Completed through the status callback — but the progress callback is
not invoked (no progress 1.0 report). -/
theorem C4_empty_run (api : Nat → ApiResult) (stop : Nat → Bool) (q0 : Nat) :
    translateRun api stop [] q0 =
      ⟨[], 0, q0, [Event.saveFile, Event.statusCb STATUS_TRANSLATION_COMPLETED], true⟩ := rfl

/-- C5: after a completed (never cancelled) run started with `used_quota = 0`,
`used_quota` equals the sum over the successfully translated entries of the
length of the translated text; failed entries contribute 0. -/
theorem C5_quota_sum (api : Nat → ApiResult) (stop : Nat → Bool)
    (entries : List String) (hstop : ∀ j, stop j = false) :
    (translateRun api stop entries 0).saved = true ∧
    (translateRun api stop entries 0).quota = succLen api 0 entries.length := by
  rw [translateRun_no_stop api stop entries 0 hstop]
  exact ⟨rfl, by simp⟩

/-- C5, witness: a 2-entry run where only the first entry succeeds. -/
theorem C5_witness :
    (translateRun apiFirstOnly stopNever ["x", "y"] 0).saved = true ∧
    (translateRun apiFirstOnly stopNever ["x", "y"] 0).quota =
      succLen apiFirstOnly 0 (["x", "y"] : List String).length :=
  C5_quota_sum apiFirstOnly stopNever ["x", "y"] (fun _ => rfl)

/-- C7: when the DeepL API key is absent or whitespace-only,
`start_translation` reports the missing-credential error through the
observer's error callback and returns without submitting any work. -/
theorem C7_missing_key (apiKey : Option String) (ext : String) (jobRunning : Bool)
    (h : keyMissing apiKey = true) :
    start_translation apiKey ext jobRunning =
      StartOutcome.errorReported ("No API key found. Please provide a valid DeepL API Key.") ∧
    start_translation apiKey ext jobRunning ≠ StartOutcome.submitted := by
  constructor
  · simp [start_translation, h]
  · simp [start_translation, h]

/-- C7, witness: a whitespace-only key with an `.srt` path. -/
theorem C7_witness :
    start_translation (some ("   ")) ".srt" false =
      StartOutcome.errorReported ("No API key found. Please provide a valid DeepL API Key.") ∧
    start_translation (some ("   ")) ".srt" false ≠ StartOutcome.submitted :=
  C7_missing_key (some ("   ")) ".srt" false (by decide)

/-- C9, counterexample: a call to `start_translation` with a valid key and an
`.srt` path while a job is already running still submits a second run — it is
neither rejected nor a no-op. -/
theorem C9_counterexample :
    start_translation (some ("key")) ".srt" true = StartOutcome.submitted := by decide

/-- C9 (amended): `start_translation` performs no running-job check: with a
valid credential and an `.srt` path it submits a run regardless of whether a
job is currently running, and its outcome is independent of that state — a
second call therefore starts a second concurrent job-engine run. -/
theorem C9_no_running_guard (apiKey : Option String) (ext : String) (jobRunning : Bool)
    (h1 : keyMissing apiKey = false) (h2 : strLower ext = ".srt") :
    start_translation apiKey ext jobRunning = StartOutcome.submitted ∧
    start_translation apiKey ext true = start_translation apiKey ext false := by
  constructor
  · simp [start_translation, h1, h2]
  · simp [start_translation, h1, h2]

/-- C9, witness: valid key, `.srt` extension, job already running. -/
theorem C9_witness :
    start_translation (some ("key")) ".srt" true = StartOutcome.submitted ∧
    start_translation (some ("key")) ".srt" true = start_translation (some ("key")) ".srt" false :=
  C9_no_running_guard (some ("key")) ".srt" true (by decide) (by decide)

/-! ### Helpers for the remaining claims -/

theorem succCount_all (api : Nat → ApiResult) (hs : ∀ j, (api j).isSuccess = true)
    (i n : Nat) : succCount api i n = n := by
  unfold succCount
  rw [List.countP_eq_length.mpr (fun a _ => hs (i + a))]
  exact List.length_range n

theorem progressEvents_append (l1 l2 : List Event) :
    progressEvents (l1 ++ l2) = progressEvents l1 ++ progressEvents l2 :=
  List.filterMap_append l1 l2 _

theorem progressEvents_run_tail :
    progressEvents [Event.saveFile, Event.statusCb STATUS_TRANSLATION_COMPLETED] = [] := rfl

/-- The exact progress fractions of a never-cancelled, all-successful run:
`1/N, 2/N, ..., N/N`. -/
theorem progressFractions_all_success (api : Nat → ApiResult) (stop : Nat → Bool)
    (entries : List String) (q0 : Nat)
    (hstop : ∀ j, stop j = false) (hs : ∀ j, (api j).isSuccess = true) :
    progressFractions (translateRun api stop entries q0).events =
      (List.range entries.length).map
        (fun (j : Nat) => ((j : ℚ) + 1) / (entries.length : ℚ)) := by
  rw [translateRun_no_stop api stop entries q0 hstop]
  show progressFractions
      (loopEvents api entries.length entries.length 0 0 q0 ++
        [Event.saveFile, Event.statusCb STATUS_TRANSLATION_COMPLETED]) = _
  unfold progressFractions
  rw [progressEvents_append, progressEvents_run_tail, List.append_nil,
    progressEvents_loopEvents_all_success api entries.length hs entries.length 0 0 q0,
    List.map_map]
  apply List.map_congr_left
  intro j _
  have h : (0 + 1 + j : Nat) = j + 1 := by omega
  simp [Function.comp_def, h]

theorem fractions_strict_mono (N : Nat) :
    ((List.range N).map (fun (j : Nat) => ((j : ℚ) + 1) / (N : ℚ))).Pairwise (· < ·) := by
  rcases Nat.eq_zero_or_pos N with h | h
  · subst h; simp
  · refine List.Pairwise.map _ ?_ (List.pairwise_lt_range N)
    intro a b hab
    have hN : (0 : ℚ) < N := by exact_mod_cast h
    rw [div_lt_div_iff_of_pos_right hN]
    have : (a : ℚ) < b := by exact_mod_cast hab
    linarith

theorem fractions_getLast (N : Nat) (h : 0 < N) :
    ((List.range N).map (fun (j : Nat) => ((j : ℚ) + 1) / (N : ℚ))).getLast? = some 1 := by
  rw [List.getLast?_eq_getElem?, List.length_map, List.length_range,
    List.getElem?_map, List.getElem?_range (by omega : N - 1 < N)]
  have hN : (N : ℚ) ≠ 0 := by
    exact_mod_cast Nat.pos_iff_ne_zero.mp h
  have hc : ((N - 1 : ℕ) : ℚ) + 1 = (N : ℚ) := by
    exact_mod_cast Nat.succ_pred_eq_of_pos h
  simp [hc, div_self hN]

theorem run_events_filter_sleep (api : Nat → ApiResult) (stop : Nat → Bool)
    (entries : List String) (q0 : Nat) (hstop : ∀ j, stop j = false) :
    (translateRun api stop entries q0).events.filter Event.isSleep =
      (loopEvents api entries.length entries.length 0 0 q0).filter Event.isSleep := by
  rw [translateRun_no_stop api stop entries q0 hstop]
  show List.filter _ (_ ++ [Event.saveFile, Event.statusCb STATUS_TRANSLATION_COMPLETED]) = _
  have ht : List.filter Event.isSleep
      [Event.saveFile, Event.statusCb STATUS_TRANSLATION_COMPLETED] = [] := rfl
  rw [List.filter_append, ht, List.append_nil]

/-! ### Remaining claims -/

/-- C3, counterexample: a 1-entry run whose only translation attempt fails
finishes without cancellation (the file is saved) yet `entries_processed` is
0, not 1, and the progress callback was never invoked. -/
theorem C3_counterexample :
    (translateRun apiAllFail stopNever ["hi"] 0).saved = true ∧
    (translateRun apiAllFail stopNever ["hi"] 0).count = 0 ∧
    progressEvents (translateRun apiAllFail stopNever ["hi"] 0).events = [] := by
  refine ⟨by decide, by decide, by decide⟩

/-- C3 (amended): for a run that finishes without cancellation AND in which
every entry's translation succeeds, `entries_processed = N`, the progress
callback is invoked exactly `N` times, the delivered fractions
`1/N, ..., N/N` are strictly increasing, and for `N > 0` the last one is 1. -/
theorem C3_progress_all_success (api : Nat → ApiResult) (stop : Nat → Bool)
    (entries : List String) (q0 : Nat)
    (hstop : ∀ j, stop j = false) (hs : ∀ j, (api j).isSuccess = true) :
    (translateRun api stop entries q0).count = entries.length ∧
    progressFractions (translateRun api stop entries q0).events =
      (List.range entries.length).map
        (fun (j : Nat) => ((j : ℚ) + 1) / (entries.length : ℚ)) ∧
    (progressFractions (translateRun api stop entries q0).events).length = entries.length ∧
    (progressFractions (translateRun api stop entries q0).events).Pairwise (· < ·) ∧
    (0 < entries.length →
      (progressFractions (translateRun api stop entries q0).events).getLast? = some 1) := by
  have hfrac := progressFractions_all_success api stop entries q0 hstop hs
  refine ⟨?_, hfrac, ?_, ?_, ?_⟩
  · rw [translateRun_no_stop api stop entries q0 hstop]
    show succCount api 0 entries.length = entries.length
    exact succCount_all api hs 0 entries.length
  · rw [hfrac, List.length_map, List.length_range]
  · rw [hfrac]; exact fractions_strict_mono entries.length
  · intro hpos; rw [hfrac]; exact fractions_getLast entries.length hpos

/-- C3, witness: a 2-entry all-success run. -/
theorem C3_witness :
    (translateRun apiAllOk stopNever ["x", "y"] 0).count =
      (["x", "y"] : List String).length ∧
    progressFractions (translateRun apiAllOk stopNever ["x", "y"] 0).events =
      (List.range (["x", "y"] : List String).length).map
        (fun (j : Nat) => ((j : ℚ) + 1) / ((["x", "y"] : List String).length : ℚ)) ∧
    (progressFractions (translateRun apiAllOk stopNever ["x", "y"] 0).events).length =
      (["x", "y"] : List String).length ∧
    (progressFractions (translateRun apiAllOk stopNever ["x", "y"] 0).events).Pairwise
      (· < ·) ∧
    (0 < (["x", "y"] : List String).length →
      (progressFractions (translateRun apiAllOk stopNever ["x", "y"] 0).events).getLast? =
        some 1) :=
  C3_progress_all_success apiAllOk stopNever ["x", "y"] 0 (fun _ => rfl) (fun _ => rfl)

/-- C6: with the stop flag never set, no failure kind aborts the run (the
whole loop is a total function and the file is always saved), the error
callback is never invoked, every entry is attempted (a network call exists
for each index), and each failed entry's text is left unchanged. -/
theorem C6_failures_absorbed (api : Nat → ApiResult) (stop : Nat → Bool)
    (entries : List String) (q0 : Nat) (hstop : ∀ j, stop j = false) :
    (translateRun api stop entries q0).saved = true ∧
    (translateRun api stop entries q0).events.filter Event.isErrorCb = [] ∧
    (translateRun api stop entries q0).texts.length = entries.length ∧
    (∀ j, j < entries.length → (api j).isSuccess = false →
      (translateRun api stop entries q0).texts[j]? = entries[j]?) ∧
    (∀ j, j < entries.length →
      Event.networkCall j ∈ (translateRun api stop entries q0).events) := by
  rw [translateRun_no_stop api stop entries q0 hstop]
  refine ⟨rfl, ?_, ?_, ?_, ?_⟩
  · show List.filter _ (_ ++ [Event.saveFile, Event.statusCb STATUS_TRANSLATION_COMPLETED]) = _
    rw [List.filter_append, loopEvents_no_errorCb]
    rfl
  · exact finalTexts_length api entries 0
  · intro j hj hfail
    show (finalTexts api 0 entries)[j]? = entries[j]?
    rw [finalTexts_getElem? api entries 0 j]
    cases entries[j]? with
    | none => rfl
    | some t => simp [hfail]
  · intro j hj
    show Event.networkCall j ∈ _ ++ [Event.saveFile, Event.statusCb STATUS_TRANSLATION_COMPLETED]
    apply List.mem_append_left
    apply List.mem_of_mem_filter (p := Event.isNetworkCall)
    rw [loopEvents_network_calls]
    rw [List.mem_map]
    exact ⟨j, List.mem_range.mpr hj, by simp⟩

/-- C6, witness: a 2-entry run whose first entry fails at transport level. -/
theorem C6_witness :
    (translateRun apiFirstOnly stopNever ["a", "b"] 0).saved = true ∧
    (translateRun apiFirstOnly stopNever ["a", "b"] 0).events.filter Event.isErrorCb = [] ∧
    (translateRun apiFirstOnly stopNever ["a", "b"] 0).texts.length =
      (["a", "b"] : List String).length ∧
    (∀ j, j < (["a", "b"] : List String).length → (apiFirstOnly j).isSuccess = false →
      (translateRun apiFirstOnly stopNever ["a", "b"] 0).texts[j]? =
        (["a", "b"] : List String)[j]?) ∧
    (∀ j, j < (["a", "b"] : List String).length →
      Event.networkCall j ∈ (translateRun apiFirstOnly stopNever ["a", "b"] 0).events) :=
  C6_failures_absorbed apiFirstOnly stopNever ["a", "b"] 0 (fun _ => rfl)

/-- C8, counterexample: a 1-entry run whose attempt fails produces no sleep at
all — the `continue` in each `except` arm skips `time.sleep(SLEEP_TIME)`. -/
theorem C8_counterexample :
    Event.sleepEvt ∉ (translateRun apiAllFail stopNever ["a"] 0).events := by decide

/-- C8 (amended): the fixed inter-request delay is applied only after
successful attempts: over an uncancelled run the number of sleeps equals the
number of successfully translated entries, not the number of attempts. -/
theorem C8_sleep_only_after_success (api : Nat → ApiResult) (stop : Nat → Bool)
    (entries : List String) (q0 : Nat) (hstop : ∀ j, stop j = false) :
    ((translateRun api stop entries q0).events.filter Event.isSleep).length =
      succCount api 0 entries.length := by
  rw [run_events_filter_sleep api stop entries q0 hstop,
    loopEvents_sleep_count api entries.length entries.length 0 0 q0]

/-- C8, witness: two attempts, one success — exactly one sleep. -/
theorem C8_witness :
    ((translateRun apiFirstOnly stopNever ["x", "y"] 0).events.filter Event.isSleep).length =
      succCount apiFirstOnly 0 (["x", "y"] : List String).length :=
  C8_sleep_only_after_success apiFirstOnly stopNever ["x", "y"] 0 (fun _ => rfl)

/-- C10: the quota ceiling is never enforced — the run's texts, counter,
saved flag and network-call pattern are identical whatever the initial
`used_quota` (in particular past the 500000 limit), the final `used_quota`
is just the initial value plus the run's own usage, and `get_quota` always
returns the hard-coded total 500000 with the current `used_quota`. -/
theorem C10_quota_not_enforced (api : Nat → ApiResult) (stop : Nat → Bool)
    (entries : List String) (q0 u : Nat) :
    (translateRun api stop entries q0).texts = (translateRun api stop entries 0).texts ∧
    (translateRun api stop entries q0).count = (translateRun api stop entries 0).count ∧
    (translateRun api stop entries q0).saved = (translateRun api stop entries 0).saved ∧
    (translateRun api stop entries q0).quota =
      q0 + (translateRun api stop entries 0).quota ∧
    (translateRun api stop entries q0).events.filter Event.isNetworkCall =
      (translateRun api stop entries 0).events.filter Event.isNetworkCall ∧
    get_quota u = (500000, u) := by
  have h := translateEntries_quota_add api stop entries.length entries 0 0 q0 0
  rw [Nat.add_zero] at h
  simp only [translateRun, h]
  by_cases hc : (translateEntries api stop entries.length entries 0 0 0).cancelled = true
  · simp [hc, filter_network_shiftQuotaEvents, get_quota, initQuota]
  · simp [hc, List.filter_append, filter_network_shiftQuotaEvents, get_quota, initQuota]

end SubtitleTranslator
